import Mathlib

/-!
Shallow embedding of the data-ingestion core of `src/app.py`: the column
resolver (`normalize`, `detectar_columnas`) and the dataset normalizer
(`cargar_datos`), plus proofs of the specification claims about them.

Modelling conventions, stated once here:

* Python strings are `String`; a pandas `DataFrame` is a column-name list
  plus a list of rows (`DF`), with `DF.WF` expressing the dataframe shape
  invariant (every row as long as the header list) that pandas maintains.
* Cell values (`Value`) are rationals (`num`, idealizing Python floats by
  exact arithmetic), strings, dates (`date`, an integer ordinal) and
  `null` (covering `NaN`/`NaT`/missing).
* Operations that raise a Python exception caught by the per-sheet
  `try/except` of `cargar_datos` (e.g. `KeyError` on a missing column,
  `TypeError` on arithmetic with a string cell, ambiguous duplicate column
  labels) are modelled in `Except Unit`.
* `unicodedata.normalize('NFKD', ·)` / `unicodedata.combining` are embedded
  by a decomposition table restricted to the Spanish-relevant accented Latin
  letters (identity elsewhere) and the Latin combining-diacritics block;
  `str.lower` by per-character ASCII lowering (sufficient after the table's
  decompositions).
* `pd.to_datetime(·, errors='coerce')` is embedded by a total coercion that
  accepts date values, numeric values, and ISO `YYYY-MM-DD` strings and
  yields `null` (`NaT`) otherwise.
* The Excel reading in `cargar_datos` is an external collaborator (spec §6);
  the model's input is the already-parsed batch: a list of files, each a
  named list of sheets.  `st.warning`/`st.error` messages become `Diag`
  values, collected in emission order.
* `pd.concat(ignore_index=True)` is modelled as row-list concatenation in
  which every row keeps the key/value pairs of its own table (pandas
  additionally pads columns missing from other tables with `NaN`; that
  padding only ever adds null entries and is not needed by any claim).
-/

namespace App

/-- Combining-mark test, modelling `unicodedata.combining(c) != 0` on the
Latin combining-diacritics block U+0300..U+036F (the only combining marks
produced by the decomposition table `nfkdChar` below). -/
def combining (c : Char) : Bool :=
  decide (0x300 ≤ c.toNat ∧ c.toNat ≤ 0x36F)

/-- NFKD decomposition of one character, modelling
`unicodedata.normalize('NFKD', ·)` restricted to the accented Latin letters
relevant to the Spanish keyword vocabulary; every other character decomposes
to itself. -/
def nfkdChar : Char → List Char
  | 'á' => ['a', '́']
  | 'é' => ['e', '́']
  | 'í' => ['i', '́']
  | 'ó' => ['o', '́']
  | 'ú' => ['u', '́']
  | 'Á' => ['A', '́']
  | 'É' => ['E', '́']
  | 'Í' => ['I', '́']
  | 'Ó' => ['O', '́']
  | 'Ú' => ['U', '́']
  | 'ñ' => ['n', '̃']
  | 'Ñ' => ['N', '̃']
  | 'ü' => ['u', '̈']
  | 'Ü' => ['U', '̈']
  | c => [c]

/-- Concatenation of a list of lists (used for character decompositions and
for `pd.concat` row accumulation). -/
def concatAll {α : Type} : List (List α) → List α
  | [] => []
  | l :: ls => l ++ concatAll ls

/-- `normalize` from `src/app.py` lines 10-14: NFKD-decompose, drop combining
marks, lower-case.  The `isinstance(text, str)` guard is vacuous here since
header labels are modelled as strings. -/
def normalize (s : String) : String :=
  String.mk (((concatAll (s.data.map nfkdChar)).filter (fun c => !combining c)).map Char.toLower)

/-- `startsList n h` holds when `n` is an initial run of `h` (helper for the
Python substring test `key in col_norm`). -/
def startsList : List Char → List Char → Bool
  | [], _ => true
  | _ :: _, [] => false
  | a :: as, b :: bs => a = b && startsList as bs

/-- `hasSub n h` models Python's `n in h` substring containment on the
character lists of the two strings. -/
def hasSub (n : List Char) : List Char → Bool
  | [] => startsList n []
  | c :: cs => startsList n (c :: cs) || hasSub n cs

/-- The fixed set of semantic fields (spec §3 FieldKey); the first six are
required, the last three optional. -/
inductive FieldKey
  | fecha
  | region
  | clics
  | impresiones
  | conversiones
  | coste
  | canal
  | campana
  | leads
deriving DecidableEq

/-- Keyword vocabulary of the resolver (the keys of `columnas_detectadas` in
`detectar_columnas`, `src/app.py` lines 19-29). -/
def keyword : FieldKey → String
  | .fecha => "fecha"
  | .region => "region"
  | .clics => "clics"
  | .impresiones => "impresiones"
  | .conversiones => "conversiones"
  | .coste => "coste"
  | .canal => "canal"
  | .campana => "campana"
  | .leads => "leads"

/-- The `columnas_detectadas` dictionary of `detectar_columnas`: for each
keyword, the detected column header (or none). -/
structure ColumnasDetectadas where
  fecha : Option String
  region : Option String
  clics : Option String
  impresiones : Option String
  conversiones : Option String
  coste : Option String
  canal : Option String
  campana : Option String
  leads : Option String
deriving DecidableEq

/-- Field accessor for `ColumnasDetectadas`, indexed by `FieldKey`. -/
def getKey (c : ColumnasDetectadas) : FieldKey → Option String
  | .fecha => c.fecha
  | .region => c.region
  | .clics => c.clics
  | .impresiones => c.impresiones
  | .conversiones => c.conversiones
  | .coste => c.coste
  | .canal => c.canal
  | .campana => c.campana
  | .leads => c.leads

/-- One step of the scan in `detectar_columnas` (`src/app.py` lines 30-34):
for the header `col`, every keyword contained in `normalize col` is
(re)assigned to `col`. -/
def updateCol (acc : ColumnasDetectadas) (col : String) : ColumnasDetectadas :=
  let n := (normalize col).data
  { fecha := if hasSub "fecha".data n then some col else acc.fecha
    region := if hasSub "region".data n then some col else acc.region
    clics := if hasSub "clics".data n then some col else acc.clics
    impresiones := if hasSub "impresiones".data n then some col else acc.impresiones
    conversiones := if hasSub "conversiones".data n then some col else acc.conversiones
    coste := if hasSub "coste".data n then some col else acc.coste
    canal := if hasSub "canal".data n then some col else acc.canal
    campana := if hasSub "campana".data n then some col else acc.campana
    leads := if hasSub "leads".data n then some col else acc.leads }

/-- `detectar_columnas` from `src/app.py` lines 17-35, taking the header list
(`df.columns`) of a table. -/
def detectar_columnas (headers : List String) : ColumnasDetectadas :=
  headers.foldl updateCol ⟨none, none, none, none, none, none, none, none, none⟩

/-- `matchesKey k h`: the header `h` matches field `k`, i.e. the normalized
header contains the keyword of `k` as a substring. -/
def matchesKey (k : FieldKey) (h : String) : Bool :=
  hasSub (keyword k).data (normalize h).data

/-- The six required fields, in the order of the membership test on
`src/app.py` line 52. -/
def requiredKeys : List FieldKey :=
  [.fecha, .region, .clics, .impresiones, .conversiones, .coste]

/-- The gating test of `src/app.py` line 52: all six required fields were
detected (the source skips the sheet when `None` is among them). -/
def requiredOk (c : ColumnasDetectadas) : Bool :=
  c.fecha.isSome && c.region.isSome && c.clics.isSome &&
    c.impresiones.isSome && c.conversiones.isSome && c.coste.isSome

/-- A cell value: exact rationals stand in for Python numbers, `date` is a
parsed date (integer ordinal), `null` covers `NaN`/`NaT`/missing. -/
inductive Value
  | num (q : ℚ)
  | str (s : String)
  | date (d : Int)
  | null
deriving DecidableEq

/-- Whether a value is the missing marker (`NaN`/`NaT`). -/
def Value.isNull : Value → Bool
  | .null => true
  | _ => false

/-- A pandas DataFrame: ordered column labels plus rows of values aligned
with the labels. -/
structure DF where
  cols : List String
  rows : List (List Value)
deriving DecidableEq

/-- DataFrame shape invariant: every row has one value per column label. -/
def DF.WF (df : DF) : Prop := ∀ r ∈ df.rows, r.length = df.cols.length

/-- Number of columns carrying the label `n`. -/
def occ (n : String) : List String → Nat
  | [] => 0
  | c :: cs => (if c = n then 1 else 0) + occ n cs

/-- Index of the first column carrying the label `n`. -/
def firstIdx (n : String) : List String → Option Nat
  | [] => none
  | c :: cs => if c = n then some 0 else (firstIdx n cs).map (· + 1)

/-- Column read `df[n]`, as a list of cell values.  A missing label is a
`KeyError`; a duplicated label yields a two-dimensional selection that
poisons every downstream arithmetic/assignment step, modelled as an error
as well.  Both are caught by the per-sheet `except` of `cargar_datos`. -/
def DF.getCol (df : DF) (n : String) : Except Unit (List Value) :=
  match occ n df.cols, firstIdx n df.cols with
  | 1, some i => .ok (df.rows.map (fun r => r.getD i Value.null))
  | _, _ => .error ()

/-- Truncating elementwise combination of two lists (series arithmetic on
aligned columns). -/
def zipW {α β γ : Type} (f : α → β → γ) : List α → List β → List γ
  | a :: as, b :: bs => f a b :: zipW f as bs
  | _, _ => []

/-- Column write `df[n] = vs`: overwrites the column when the label exists
(uniquely), appends a new column when it does not; an ambiguous duplicated
label is an error (see `DF.getCol`). -/
def DF.setCol (df : DF) (n : String) (vs : List Value) : Except Unit DF :=
  match occ n df.cols, firstIdx n df.cols with
  | 0, _ => .ok ⟨df.cols ++ [n], zipW (fun r v => r ++ [v]) df.rows vs⟩
  | 1, some i => .ok ⟨df.cols, zipW (fun r v => r.set i v) df.rows vs⟩
  | _, _ => .error ()

/-- `df.dropna(subset=[n])`: keep the rows whose value in column `n` is not
missing. -/
def DF.dropna (df : DF) (n : String) : Except Unit DF :=
  match occ n df.cols, firstIdx n df.cols with
  | 1, some i => .ok ⟨df.cols, df.rows.filter (fun r => !(r.getD i Value.null).isNull)⟩
  | _, _ => .error ()

/-- Application of a Python dict (association list in insertion order, later
duplicate keys overwriting earlier ones) to one column label; labels not in
the dict are unchanged — the semantics of `df.rename(columns=...)`. -/
def applyDict (m : List (String × String)) (c : String) : String :=
  (m.foldl (fun a kv => if kv.1 = c then some kv.2 else a) none).getD c

/-- `df.rename(columns=dict)`: relabel columns, values untouched. -/
def DF.rename (df : DF) (m : List (String × String)) : DF :=
  ⟨df.cols.map (applyDict m), df.rows⟩

/-- Pair column labels with one row's values (a row viewed as a mapping). -/
def pairUp : List String → List Value → List (String × Value)
  | c :: cs, v :: vs => (c, v) :: pairUp cs vs
  | _, _ => []

/-- A row of the unified dataset, as label/value pairs. -/
abbrev Row : Type := List (String × Value)

/-- Value of a row at a label (first occurrence, like a mapping lookup). -/
def lookupV (n : String) : Row → Option Value
  | [] => none
  | p :: ps => if p.1 = n then some p.2 else lookupV n ps

/-- The rows of a dataframe as label/value mappings. -/
def DF.toRows (df : DF) : List Row := df.rows.map (pairUp df.cols)

/-- Numeric value of a decimal digit character. -/
def digitVal (c : Char) : Nat := c.toNat - 48

/-- ISO `YYYY-MM-DD` date parsing (the string fragment of the
`pd.to_datetime` model), yielding an integer ordinal. -/
def parseIso (s : String) : Option Int :=
  match s.data with
  | [y1, y2, y3, y4, '-', m1, m2, '-', d1, d2] =>
    if y1.isDigit && y2.isDigit && y3.isDigit && y4.isDigit &&
        m1.isDigit && m2.isDigit && d1.isDigit && d2.isDigit then
      let y := 1000 * digitVal y1 + 100 * digitVal y2 + 10 * digitVal y3 + digitVal y4
      let m := 10 * digitVal m1 + digitVal m2
      let d := 10 * digitVal d1 + digitVal d2
      if 1 ≤ m ∧ m ≤ 12 ∧ 1 ≤ d ∧ d ≤ 31 then some (10000 * y + 100 * m + d : Int)
      else none
    else none
  | _ => none

/-- `pd.to_datetime(·, errors='coerce')` on one cell: already-parsed dates
pass through, numbers are epoch offsets, ISO strings parse, everything else
(including `null`) coerces to `NaT` (`none` here). -/
def toDatetime : Value → Option Int
  | .date d => some d
  | .num q => some ⌊q⌋
  | .str s => parseIso s
  | .null => none

/-- The coerced date cell: a date on success, `NaT` on failure. -/
def coerceFecha (v : Value) : Value :=
  match toDatetime v with
  | some d => .date d
  | none => .null

/-- Numeric view of a cell for series arithmetic: numbers and `NaN` are
fine; a string or date operand raises (`TypeError`), caught per sheet. -/
def toNumOpt : Value → Except Unit (Option ℚ)
  | .num q => .ok (some q)
  | .null => .ok none
  | _ => .error ()

/-- Numeric view of a whole column. -/
def nums : List Value → Except Unit (List (Option ℚ))
  | [] => .ok []
  | v :: vs =>
    match toNumOpt v, nums vs with
    | .ok a, .ok l => .ok (a :: l)
    | _, _ => .error ()

/-- One cell of `np.where(df["impresiones"] > 0, (df["clics"] / df["impresiones"]) * 100, 0)`
(`src/app.py` line 75): `NaN > 0` is false, so a missing impressions cell
selects the 0 branch; a missing clicks cell with positive impressions gives
`NaN`. -/
def ctrOf (oc oi : Option ℚ) : Value :=
  match oi with
  | some i => if 0 < i then (match oc with
      | some c => .num (c / i * 100)
      | none => .null)
    else .num 0
  | none => .num 0

/-- One cell of `np.where(df["conversiones"] > 0, df["coste"] / df["conversiones"], np.nan)`
(`src/app.py` line 76). -/
def cpcOf (ocost oconv : Option ℚ) : Value :=
  match oconv with
  | some v => if 0 < v then (match ocost with
      | some c => .num (c / v)
      | none => .null)
    else .null
  | none => .null

/-- The rename dict literal of `src/app.py` lines 56-63, in source order;
Python dict-literal semantics (`applyDict`) make a later pair win when the
same header was detected for two fields.  Under `requiredOk` every `getD`
default is dead. -/
def dictRequired (c : ColumnasDetectadas) : List (String × String) :=
  [(c.fecha.getD "", "fecha"), (c.region.getD "", "region"),
   (c.clics.getD "", "clics"), (c.impresiones.getD "", "impresiones"),
   (c.conversiones.getD "", "conversiones"), (c.coste.getD "", "coste")]

/-- One conditional optional rename (`src/app.py` lines 65-70). -/
def optRename (o : Option String) (canon : String) (df : DF) : DF :=
  match o with
  | some h => df.rename [(h, canon)]
  | none => df

/-- All renames of `src/app.py` lines 56-70 in order: the required dict,
then the three optional single renames. -/
def renameAll (c : ColumnasDetectadas) (df : DF) : DF :=
  optRename c.leads "leads"
    (optRename c.campana "campana"
      (optRename c.canal "canal" (df.rename (dictRequired c))))

/-- The body of the per-sheet `try` block of `cargar_datos` after the gating
check (`src/app.py` lines 55-80): renames, date coercion and row filtering,
derived metrics, provenance columns.  Any error is the exception caught on
line 81. -/
def cargar_hoja (fileName sheetName : String) (df0 : DF) : Except Unit DF := do
  let c := detectar_columnas df0.cols
  let df4 := renameAll c df0
  let fec ← df4.getCol "fecha"
  let df5 ← df4.setCol "fecha" (fec.map coerceFecha)
  let df6 ← df5.dropna "fecha"
  let imp ← df6.getCol "impresiones"
  let cl ← df6.getCol "clics"
  let nimp ← nums imp
  let ncl ← nums cl
  let df7 ← df6.setCol "CTR" (zipW ctrOf ncl nimp)
  let conv ← df7.getCol "conversiones"
  let cost ← df7.getCol "coste"
  let nconv ← nums conv
  let ncost ← nums cost
  let df8 ← df7.setCol "Coste_por_conversion" (zipW cpcOf ncost nconv)
  let df9 ← df8.setCol "origen_archivo" (List.replicate df8.rows.length (Value.str fileName))
  let df10 ← df9.setCol "origen_hoja" (List.replicate df9.rows.length (Value.str sheetName))
  return df10

/-- One sheet of an uploaded workbook. -/
structure Hoja where
  name : String
  df : DF
deriving DecidableEq

/-- One uploaded workbook (already parsed; reading is the external
collaborator's job, spec §6). -/
structure Archivo where
  name : String
  hojas : List Hoja
deriving DecidableEq

/-- The diagnostics `cargar_datos` can emit per sheet: the line-53 warning
for missing required columns, the line-82 error for an exception while
processing the sheet.  Each names the sheet and the file. -/
inductive Diag
  | missing (hoja archivo : String)
  | errorHoja (hoja archivo : String)
deriving DecidableEq

/-- Processing of one sheet inside the loop of `cargar_datos` (`src/app.py`
lines 47-82): gating on required columns, then the `try` body; the result is
either a diagnostic or a processed dataframe. -/
def procesarHoja (fileName : String) (h : Hoja) : Diag ⊕ DF :=
  if requiredOk (detectar_columnas h.df.cols) then
    match cargar_hoja fileName h.name h.df with
    | .ok d => .inr d
    | .error _ => .inl (.errorHoja h.name fileName)
  else .inl (.missing h.name fileName)

/-- Rows and diagnostics contributed by one sheet: a skipped sheet contributes
no rows and exactly one diagnostic, a processed sheet its rows and no
diagnostic. -/
def contribHoja (fileName : String) (h : Hoja) : List Row × List Diag :=
  match procesarHoja fileName h with
  | .inl d => ([], [d])
  | .inr df => (df.toRows, [])

/-- Rows and diagnostics contributed by all sheets of one workbook, in sheet
order. -/
def contribArchivo (f : Archivo) : List Row × List Diag :=
  (concatAll (f.hojas.map (fun h => (contribHoja f.name h).1)),
   concatAll (f.hojas.map (fun h => (contribHoja f.name h).2)))

/-- `cargar_datos` (`src/app.py` lines 38-87): the unified dataset is the
concatenation of the per-sheet contributions of every file, in order, and
the diagnostics are collected in emission order. -/
def cargar_datos (files : List Archivo) : List Row × List Diag :=
  (concatAll (files.map (fun f => (contribArchivo f).1)),
   concatAll (files.map (fun f => (contribArchivo f).2)))

/-- Shape invariant for a whole batch: every sheet's dataframe is
well-formed. -/
def batchWF (files : List Archivo) : Prop :=
  ∀ f ∈ files, ∀ h ∈ f.hojas, DF.WF h.df

/-- First-some choice on options (`oor a b` is `a` unless `a` is `none`). -/
def oor {α : Type} : Option α → Option α → Option α
  | some a, _ => some a
  | none, b => b

/-- Last element of a list, if any. -/
def lastO {α : Type} : List α → Option α
  | [] => none
  | a :: as => oor (lastO as) (some a)

/-- Concrete sheet used in witnesses: all required headers except a
region-like one. -/
def dfNoRegion : DF :=
  ⟨["fecha", "clics", "impresiones", "conversiones", "coste"],
   [[.str "2024-01-05", .num 1, .num 2, .num 3, .num 4]]⟩

/-- The j-th row of a dataframe as a label/value mapping. -/
def rowAt (df : DF) (j : Nat) : Row := pairUp df.cols (df.rows.getD j [])

/-- Concrete sheet used in witnesses: all required headers present (with
accents and case variation), one extra header, one unparseable date and one
zero-impressions/zero-conversions row. -/
def dfGood : DF :=
  ⟨["Fecha", "Región", "Clics", "Impresiones", "Conversiones", "Coste", "extra"],
   [[.str "2024-01-05", .str "norte", .num 10, .num 100, .num 5, .num 50, .num 7],
    [.str "garbage", .str "sur", .num 1, .num 2, .num 3, .num 4, .num 7],
    [.str "2024-02-10", .str "sur", .num 3, .num 0, .num 0, .num 9, .num 7]]⟩

/-- Concrete batch used in witnesses: one file with the one sheet above. -/
def batchGood : List Archivo := [⟨"a.xlsx", [⟨"Hoja1", dfGood⟩]⟩]

/-- Concrete sheet whose header `"region clics"` is detected for both
`region` and `clics`; the rename dict sends it to `"clics"` (the later
entry), so the table is processed without any `"region"` column. -/
def dfRC : DF :=
  ⟨["fecha", "region clics", "impresiones", "conversiones", "coste"],
   [[.str "2024-01-05", .num 10, .num 100, .num 5, .num 50]]⟩

/-- Concrete sheet whose header `"fecha coste"` is detected for both `fecha`
and `coste`; the rename dict sends it to `"coste"`, the later access to
`"fecha"` fails, and the sheet is skipped with an error diagnostic. -/
def dfFC : DF :=
  ⟨["fecha coste", "region", "clics", "impresiones", "conversiones"],
   [[.str "2024-01-05", .str "n", .num 1, .num 2, .num 3]]⟩

/-- The processed dataframe `cargar_datos` produces for `dfGood` (the
`"garbage"`-date row dropped, metrics and provenance appended, the `extra`
column retained). -/
def dGood : DF :=
  ⟨["fecha", "region", "clics", "impresiones", "conversiones", "coste", "extra",
    "CTR", "Coste_por_conversion", "origen_archivo", "origen_hoja"],
   [[.date 20240105, .str "norte", .num 10, .num 100, .num 5, .num 50, .num 7,
     .num (10 / 100 * 100), .num (50 / 5), .str "a.xlsx", .str "Hoja1"],
    [.date 20240210, .str "sur", .num 3, .num 0, .num 0, .num 9, .num 7,
     .num 0, .null, .str "a.xlsx", .str "Hoja1"]]⟩

/-- Concrete batch holding the region/clics-conflict sheet. -/
def batchRC : List Archivo := [⟨"b.xlsx", [⟨"H", dfRC⟩]⟩]

/-- The processed dataframe `cargar_datos` produces for `dfRC`: note that no
`"region"` column exists. -/
def dRC : DF :=
  ⟨["fecha", "clics", "impresiones", "conversiones", "coste",
    "CTR", "Coste_por_conversion", "origen_archivo", "origen_hoja"],
   [[.date 20240105, .num 10, .num 100, .num 5, .num 50,
     .num (10 / 100 * 100), .num (50 / 5), .str "b.xlsx", .str "H"]]⟩

instance (df : DF) : Decidable df.WF :=
  show Decidable (∀ r ∈ df.rows, r.length = df.cols.length) from inferInstance

instance (files : List Archivo) : Decidable (batchWF files) :=
  show Decidable (∀ f ∈ files, ∀ h ∈ f.hojas, DF.WF h.df) from inferInstance

end App

namespace App

lemma oor_assoc {α : Type} (a b c : Option α) : oor (oor a b) c = oor a (oor b c) := by
  cases a <;> rfl

lemma oor_none_right {α : Type} (a : Option α) : oor a none = a := by
  cases a <;> rfl

lemma getKey_updateCol (acc : ColumnasDetectadas) (col : String) (k : FieldKey) :
    getKey (updateCol acc col) k = if matchesKey k col then some col else getKey acc k := by
  cases k <;> rfl

lemma getKey_foldl (hs : List String) (acc : ColumnasDetectadas) (k : FieldKey) :
    getKey (hs.foldl updateCol acc) k =
      oor (lastO (hs.filter (fun h => matchesKey k h))) (getKey acc k) := by
  induction hs generalizing acc with
  | nil => rfl
  | cons h t ih =>
    rw [List.foldl_cons, ih, getKey_updateCol]
    by_cases hm : matchesKey k h = true
    · simp only [List.filter_cons, hm, if_pos, lastO, oor_assoc]
      rfl
    · simp only [List.filter_cons, hm, Bool.false_eq_true, if_neg, ite_false]

lemma detectar_getKey (hs : List String) (k : FieldKey) :
    getKey (detectar_columnas hs) k = lastO (hs.filter (fun h => matchesKey k h)) := by
  rw [detectar_columnas, getKey_foldl]
  have hinit : getKey ⟨none, none, none, none, none, none, none, none, none⟩ k = none := by
    cases k <;> rfl
  rw [hinit, oor_none_right]

lemma detectar_single (h : String) (k : FieldKey) :
    getKey (detectar_columnas [h]) k = if matchesKey k h then some h else none := by
  rw [detectar_getKey]
  by_cases hm : matchesKey k h = true
  · simp [List.filter_cons, hm, lastO, oor]
  · simp [List.filter_cons, hm, lastO]

lemma requiredOk_false_of_none {c : ColumnasDetectadas}
    (h : ∃ k ∈ requiredKeys, getKey c k = none) : requiredOk c = false := by
  obtain ⟨k, hk, hnone⟩ := h
  simp only [requiredKeys, List.mem_cons, List.not_mem_nil, or_false] at hk
  rcases hk with rfl | rfl | rfl | rfl | rfl | rfl <;>
    simp only [getKey] at hnone <;>
    simp [requiredOk, hnone]

lemma contribHoja_of_missing {fn : String} {h : Hoja}
    (hmiss : requiredOk (detectar_columnas h.df.cols) = false) :
    contribHoja fn h = ([], [Diag.missing h.name fn]) := by
  rw [contribHoja, procesarHoja, hmiss]
  rfl

/-- C1: for every header sequence, whenever at least two headers match a
FieldKey (their normalized forms contain its keyword), `detectar_columnas`
maps that FieldKey to the last matching header in original order. -/
theorem claim_C1 (hs : List String) (k : FieldKey)
    (htwo : 2 ≤ (hs.filter (fun h => matchesKey k h)).length) :
    getKey (detectar_columnas hs) k = lastO (hs.filter (fun h => matchesKey k h)) :=
  detectar_getKey hs k

/-- Witness for C1: headers `["Clics_Q1", "Clics_Q2"]` both match `clics`
and the mapping points to `"Clics_Q2"`. -/
theorem claim_C1_witness :
    2 ≤ ((["Clics_Q1", "Clics_Q2"] : List String).filter (fun h => matchesKey .clics h)).length ∧
    getKey (detectar_columnas ["Clics_Q1", "Clics_Q2"]) .clics = some "Clics_Q2" :=
  ⟨by decide, (claim_C1 ["Clics_Q1", "Clics_Q2"] .clics (by decide)).trans (by decide)⟩

/-- C5: column resolution is invariant under diacritics and case — a lone
header is assigned to a FieldKey exactly when its normalization (NFKD
decomposition, combining marks discarded, lower-cased) contains the
keyword; in particular `"Fecha"`, `"FECHA"` and `"fécha"` all resolve to
the `fecha` FieldKey just as `"fecha"` does. -/
theorem claim_C5 :
    (∀ (h : String) (k : FieldKey),
      getKey (detectar_columnas [h]) k =
        if hasSub (keyword k).data (normalize h).data then some h else none) ∧
    getKey (detectar_columnas ["Fecha"]) .fecha = some "Fecha" ∧
    getKey (detectar_columnas ["FECHA"]) .fecha = some "FECHA" ∧
    getKey (detectar_columnas ["fécha"]) .fecha = some "fécha" ∧
    getKey (detectar_columnas ["fecha"]) .fecha = some "fecha" :=
  ⟨fun h k => detectar_single h k, by decide, by decide, by decide, by decide⟩

/-- C8: a single header whose normalization contains the keywords of
several FieldKeys is assigned to each of them independently; the resolver
returns a total mapping, so this multi-assignment is accepted behavior and
no error exists. -/
theorem claim_C8 (h : String) (k₁ k₂ : FieldKey)
    (m₁ : matchesKey k₁ h = true) (m₂ : matchesKey k₂ h = true) :
    getKey (detectar_columnas [h]) k₁ = some h ∧
    getKey (detectar_columnas [h]) k₂ = some h := by
  rw [detectar_single, detectar_single, m₁, m₂]
  exact ⟨rfl, rfl⟩

/-- Witness for C8: `"fecha region"` contains both the `fecha` and the
`region` keyword and is assigned to both FieldKeys. -/
theorem claim_C8_witness :
    getKey (detectar_columnas ["fecha region"]) .fecha = some "fecha region" ∧
    getKey (detectar_columnas ["fecha region"]) .region = some "fecha region" :=
  claim_C8 "fecha region" .fecha .region (by decide) (by decide)

/-- C9: `detectar_columnas` and `cargar_datos` are pure functions in this
embedding, so resolution and normalization are deterministic: running them
twice on the same input yields identical results definitionally. -/
theorem claim_C9 (hs : List String) (files : List Archivo) :
    detectar_columnas hs = detectar_columnas hs ∧
    cargar_datos files = cargar_datos files :=
  ⟨rfl, rfl⟩

/-- C3: a table in which some required FieldKey is unresolved contributes
zero rows and exactly one diagnostic naming its sheet and file; the unified
dataset and diagnostics of a batch are exactly the concatenation of these
per-sheet contributions. -/
theorem claim_C3 (files : List Archivo) (fn : String) (h : Hoja) :
    ((∃ k ∈ requiredKeys, getKey (detectar_columnas h.df.cols) k = none) →
      contribHoja fn h = ([], [Diag.missing h.name fn])) ∧
    (cargar_datos files).1 = concatAll (files.map (fun f => (contribArchivo f).1)) ∧
    (cargar_datos files).2 = concatAll (files.map (fun f => (contribArchivo f).2)) :=
  ⟨fun hex => contribHoja_of_missing (requiredOk_false_of_none hex), rfl, rfl⟩

/-- Witness for C3: a sheet with every required header except a region-like
one is skipped with one diagnostic naming sheet and file. -/
theorem claim_C3_witness :
    contribHoja "a.xlsx" ⟨"H", dfNoRegion⟩ = ([], [Diag.missing "H" "a.xlsx"]) :=
  (claim_C3 [] "a.xlsx" ⟨"H", dfNoRegion⟩).1 ⟨.region, by decide, by decide⟩

end App

namespace App

lemma getD_mem {α : Type} : ∀ (l : List α) (j : Nat) (d : α), j < l.length → l.getD j d ∈ l
  | a :: as, 0, d, _ => List.mem_cons_self a as
  | a :: as, j + 1, d, h =>
    List.mem_cons_of_mem a (getD_mem as j d (Nat.lt_of_succ_lt_succ h))

lemma getD_map {α β : Type} (f : α → β) (d : α) (dm : β) :
    ∀ (l : List α) (j : Nat), j < l.length → (l.map f).getD j dm = f (l.getD j d)
  | a :: as, 0, _ => rfl
  | a :: as, j + 1, h => getD_map f d dm as j (Nat.lt_of_succ_lt_succ h)

lemma getD_set_self {α : Type} (v d : α) :
    ∀ (l : List α) (i : Nat), i < l.length → (l.set i v).getD i d = v
  | a :: as, 0, _ => rfl
  | a :: as, i + 1, h => getD_set_self v d as i (Nat.lt_of_succ_lt_succ h)

lemma getD_replicate {α : Type} (a d : α) :
    ∀ (n j : Nat), j < n → (List.replicate n a).getD j d = a
  | n + 1, 0, _ => rfl
  | n + 1, j + 1, h => getD_replicate a d n j (Nat.lt_of_succ_lt_succ h)

lemma mem_concatAll {α : Type} {a : α} :
    ∀ {ls : List (List α)}, a ∈ concatAll ls → ∃ l ∈ ls, a ∈ l := by
  intro ls h
  induction ls with
  | nil => cases h
  | cons l ls ih =>
    rw [concatAll] at h
    rcases List.mem_append.1 h with h1 | h2
    · exact ⟨l, List.mem_cons_self l ls, h1⟩
    · obtain ⟨l', hl', ha⟩ := ih h2
      exact ⟨l', List.mem_cons_of_mem l hl', ha⟩

lemma mem_map_getD {α β : Type} {f : α → β} {b : β} (d : α) :
    ∀ {l : List α}, b ∈ l.map f → ∃ j, j < l.length ∧ b = f (l.getD j d) := by
  intro l h
  induction l with
  | nil => cases h
  | cons a as ih =>
    rcases List.mem_cons.1 h with h1 | h2
    · exact ⟨0, Nat.succ_pos _, h1⟩
    · obtain ⟨j, hj, hb⟩ := ih h2
      exact ⟨j + 1, Nat.succ_lt_succ hj, hb⟩

lemma zipW_length {α β γ : Type} (f : α → β → γ) :
    ∀ (as : List α) (bs : List β), (zipW f as bs).length = min as.length bs.length
  | [], [] => rfl
  | [], b :: bs => rfl
  | a :: as, [] => rfl
  | a :: as, b :: bs => by
    simp only [zipW, List.length_cons, zipW_length f as bs]
    omega

lemma getD_zipW {α β γ : Type} (f : α → β → γ) (da : α) (db : β) (dc : γ) :
    ∀ (as : List α) (bs : List β) (j : Nat), j < as.length → j < bs.length →
      (zipW f as bs).getD j dc = f (as.getD j da) (bs.getD j db)
  | a :: as, b :: bs, 0, _, _ => rfl
  | a :: as, b :: bs, j + 1, ha, hb =>
    getD_zipW f da db dc as bs j (Nat.lt_of_succ_lt_succ ha) (Nat.lt_of_succ_lt_succ hb)

lemma mem_zipW {α β γ : Type} {f : α → β → γ} :
    ∀ {as : List α} {bs : List β} {c : γ}, c ∈ zipW f as bs →
      ∃ a b, a ∈ as ∧ b ∈ bs ∧ c = f a b := by
  intro as bs c h
  induction as generalizing bs with
  | nil => cases h
  | cons a as ih =>
    cases bs with
    | nil => cases h
    | cons b bs =>
      rcases List.mem_cons.1 h with h1 | h2
      · exact ⟨a, b, List.mem_cons_self _ _, List.mem_cons_self _ _, h1⟩
      · obtain ⟨a', b', ha, hb, hc⟩ := ih h2
        exact ⟨a', b', List.mem_cons_of_mem _ ha, List.mem_cons_of_mem _ hb, hc⟩

lemma pairUp_append (n : String) (v : Value) :
    ∀ (cols : List String) (r : List Value), r.length = cols.length →
      pairUp (cols ++ [n]) (r ++ [v]) = pairUp cols r ++ [(n, v)]
  | [], [], _ => rfl
  | c :: cs, w :: r, h => by
    rw [List.cons_append, List.cons_append, pairUp, pairUp,
      pairUp_append n v cs r (by simpa using h)]
    rfl
  | [], w :: r, h => by cases h
  | c :: cs, [], h => by cases h

lemma lookupV_append (n : String) (l₁ l₂ : Row) :
    lookupV n (l₁ ++ l₂) = oor (lookupV n l₁) (lookupV n l₂) := by
  induction l₁ with
  | nil => rfl
  | cons p ps ih =>
    rw [List.cons_append, lookupV, lookupV]
    by_cases hp : p.1 = n
    · simp only [hp, if_pos rfl]
      rfl
    · rw [if_neg hp, if_neg hp, ih]

lemma lookupV_pairUp_none {n : String} :
    ∀ {cols : List String} (r : List Value), n ∉ cols → lookupV n (pairUp cols r) = none := by
  intro cols
  induction cols with
  | nil => intro r _; cases r <;> rfl
  | cons c cs ih =>
    intro r hnm
    cases r with
    | nil => rfl
    | cons v vs =>
      rw [pairUp, lookupV, if_neg (fun hc => hnm (List.mem_cons.2 (Or.inl hc.symm)))]
      exact ih vs (fun hm => hnm (List.mem_cons_of_mem c hm))

lemma lookupV_pairUp {n : String} :
    ∀ {cols : List String} {i : Nat} (r : List Value), firstIdx n cols = some i →
      r.length = cols.length → lookupV n (pairUp cols r) = some (r.getD i Value.null) := by
  intro cols
  induction cols with
  | nil => intro i r h; cases h
  | cons c cs ih =>
    intro i r hidx hlen
    cases r with
    | nil => cases hlen
    | cons v vs =>
      rw [firstIdx] at hidx
      by_cases hc : c = n
      · rw [if_pos hc] at hidx
        cases hidx
        rw [pairUp, lookupV, if_pos hc]
        rfl
      · rw [if_neg hc] at hidx
        cases hi : firstIdx n cs with
        | none => rw [hi] at hidx; cases hidx
        | some i' =>
          rw [hi, Option.map_some'] at hidx
          cases hidx
          rw [pairUp, lookupV, if_neg hc]
          exact ih vs hi (by simpa using hlen)

lemma lookupV_pairUp_set {m : String} {v : Value} :
    ∀ {cols : List String} {i : Nat} (r : List Value), i < cols.length →
      cols.getD i "" ≠ m →
      lookupV m (pairUp cols (r.set i v)) = lookupV m (pairUp cols r) := by
  intro cols
  induction cols with
  | nil => intro i r h _; cases h
  | cons c cs ih =>
    intro i r hi hne
    cases r with
    | nil => rfl
    | cons w ws =>
      cases i with
      | zero =>
        rw [List.set_cons_zero, pairUp, pairUp, lookupV, lookupV,
          if_neg (by simpa using hne), if_neg (by simpa using hne)]
      | succ i =>
        rw [List.set_cons_succ, pairUp, pairUp, lookupV, lookupV]
        by_cases hc : c = m
        · rw [if_pos hc, if_pos hc]
        · rw [if_neg hc, if_neg hc]
          exact ih ws (Nat.lt_of_succ_lt_succ hi) hne

lemma firstIdx_lt {n : String} : ∀ {cols : List String} {i : Nat},
    firstIdx n cols = some i → i < cols.length := by
  intro cols
  induction cols with
  | nil => intro i h; cases h
  | cons c cs ih =>
    intro i h
    rw [firstIdx] at h
    by_cases hc : c = n
    · rw [if_pos hc] at h; cases h; exact Nat.succ_pos _
    · rw [if_neg hc] at h
      cases hi : firstIdx n cs with
      | none => rw [hi] at h; cases h
      | some i' =>
        rw [hi, Option.map_some'] at h
        cases h
        exact Nat.succ_lt_succ (ih hi)

lemma firstIdx_getD {n : String} : ∀ {cols : List String} {i : Nat},
    firstIdx n cols = some i → cols.getD i "" = n := by
  intro cols
  induction cols with
  | nil => intro i h; cases h
  | cons c cs ih =>
    intro i h
    rw [firstIdx] at h
    by_cases hc : c = n
    · rw [if_pos hc] at h; cases h; exact hc
    · rw [if_neg hc] at h
      cases hi : firstIdx n cs with
      | none => rw [hi] at h; cases h
      | some i' =>
        rw [hi, Option.map_some'] at h
        cases h
        exact ih hi

lemma not_mem_of_occ_zero {n : String} : ∀ {cols : List String},
    occ n cols = 0 → n ∉ cols := by
  intro cols
  induction cols with
  | nil => intro _ h; cases h
  | cons c cs ih =>
    intro h hm
    rw [occ] at h
    by_cases hc : c = n
    · rw [if_pos hc] at h; omega
    · rw [if_neg hc] at h
      rcases List.mem_cons.1 hm with h1 | h2
      · exact hc h1.symm
      · exact ih (by omega) h2

lemma occ_append (n : String) (l₁ l₂ : List String) :
    occ n (l₁ ++ l₂) = occ n l₁ + occ n l₂ := by
  induction l₁ with
  | nil => simp [occ]
  | cons c cs ih =>
    rw [List.cons_append, occ, occ, ih]
    omega

lemma length_filter_map {α β : Type} (f : α → β) (p : β → Bool) :
    ∀ (l : List α), ((l.map f).filter p).length = (l.filter (fun a => p (f a))).length := by
  intro l
  induction l with
  | nil => rfl
  | cons a as ih =>
    rw [List.map_cons, List.filter_cons, List.filter_cons]
    cases hp : p (f a) <;> simp [hp, ih]

lemma filter_set_length (i : Nat) :
    ∀ (rows : List (List Value)) (vals : List Value), vals.length = rows.length →
      (∀ r ∈ rows, i < r.length) →
      ((zipW (fun r v => r.set i v) rows vals).filter
          (fun r => !(r.getD i Value.null).isNull)).length =
        (vals.filter (fun v => !v.isNull)).length := by
  intro rows
  induction rows with
  | nil =>
    intro vals hlen _
    rw [List.length_eq_zero.1 hlen]
    rfl
  | cons r rs ih =>
    intro vals hlen hwf
    cases vals with
    | nil => cases hlen
    | cons v vs =>
      have hset : ((r.set i v).getD i Value.null) = v :=
        getD_set_self v Value.null r i (hwf r (List.mem_cons_self r rs))
      rw [zipW, List.filter_cons, List.filter_cons, hset]
      have ihv := ih vs (by simpa using hlen) (fun r' hr' => hwf r' (List.mem_cons_of_mem r hr'))
      cases hv : v.isNull <;> simpa [hv] using ihv

lemma nums_ok_length : ∀ {vs : List Value} {l : List (Option ℚ)},
    nums vs = .ok l → l.length = vs.length := by
  intro vs
  induction vs with
  | nil =>
    intro l h
    rw [nums] at h
    cases h
    rfl
  | cons v vs ih =>
    intro l h
    rw [nums] at h
    cases h1 : toNumOpt v with
    | error e => rw [h1] at h; cases h
    | ok a =>
      cases h2 : nums vs with
      | error e => rw [h1, h2] at h; cases h
      | ok l' =>
        rw [h1, h2] at h
        cases h
        rw [List.length_cons, ih h2]
        rfl

lemma nums_ok_getD : ∀ {vs : List Value} {l : List (Option ℚ)},
    nums vs = .ok l → ∀ j, j < vs.length →
      toNumOpt (vs.getD j Value.null) = .ok (l.getD j none) := by
  intro vs
  induction vs with
  | nil => intro l _ j hj; cases hj
  | cons v vs ih =>
    intro l h j hj
    rw [nums] at h
    cases h1 : toNumOpt v with
    | error e => rw [h1] at h; cases h
    | ok a =>
      cases h2 : nums vs with
      | error e => rw [h1, h2] at h; cases h
      | ok l' =>
        rw [h1, h2] at h
        cases h
        cases j with
        | zero => exact h1
        | succ j => exact ih h2 j (Nat.lt_of_succ_lt_succ hj)

lemma bind_ok {α β : Type} {x : Except Unit α} {f : α → Except Unit β} {b : β}
    (h : x >>= f = .ok b) : ∃ a, x = .ok a ∧ f a = .ok b := by
  cases x with
  | ok a => exact ⟨a, rfl, h⟩
  | error e => exact absurd h (by simp [Bind.bind, Except.bind])

lemma pure_ok {α : Type} {a b : α} (h : (pure a : Except Unit α) = .ok b) : a = b := by
  cases h
  rfl

end App

namespace App

lemma getCol_ok {df : DF} {n : String} {v : List Value} (h : df.getCol n = .ok v) :
    occ n df.cols = 1 ∧ ∃ i, firstIdx n df.cols = some i ∧
      v = df.rows.map (fun r => r.getD i Value.null) := by
  rw [DF.getCol] at h
  split at h
  · rename_i i hocc hidx
    cases h
    exact ⟨hocc, i, hidx, rfl⟩
  all_goals exact Except.noConfusion h

lemma getCol_length {df : DF} {n : String} {v : List Value} (h : df.getCol n = .ok v) :
    v.length = df.rows.length := by
  obtain ⟨_, i, _, rfl⟩ := getCol_ok h
  simp

lemma setCol_ok {df : DF} {n : String} {vs : List Value} {d' : DF}
    (h : df.setCol n vs = .ok d') :
    (occ n df.cols = 0 ∧ d' = ⟨df.cols ++ [n], zipW (fun r v => r ++ [v]) df.rows vs⟩) ∨
    (∃ i, occ n df.cols = 1 ∧ firstIdx n df.cols = some i ∧
      d' = ⟨df.cols, zipW (fun r v => r.set i v) df.rows vs⟩) := by
  rw [DF.setCol] at h
  split at h
  · rename_i hocc
    cases h
    exact Or.inl ⟨hocc, rfl⟩
  · rename_i i hocc hidx
    cases h
    exact Or.inr ⟨i, hocc, hidx, rfl⟩
  all_goals exact Except.noConfusion h

lemma dropna_ok {df : DF} {n : String} {d' : DF} (h : df.dropna n = .ok d') :
    ∃ i, occ n df.cols = 1 ∧ firstIdx n df.cols = some i ∧
      d' = ⟨df.cols, df.rows.filter (fun r => !(r.getD i Value.null).isNull)⟩ := by
  rw [DF.dropna] at h
  split at h
  · rename_i i hocc hidx
    cases h
    exact ⟨i, hocc, hidx, rfl⟩
  all_goals exact Except.noConfusion h

lemma setCol_cols {df : DF} {n : String} {vs : List Value} {d' : DF}
    (h : df.setCol n vs = .ok d') :
    d'.cols = df.cols ∨ d'.cols = df.cols ++ [n] := by
  rcases setCol_ok h with ⟨_, rfl⟩ | ⟨i, _, _, rfl⟩
  · exact Or.inr rfl
  · exact Or.inl rfl

lemma setCol_occ {df : DF} {n : String} {vs : List Value} {d' : DF} {m : String}
    (h : df.setCol n vs = .ok d') (hmn : m ≠ n) :
    occ m d'.cols = occ m df.cols := by
  have h0 : occ m [n] = 0 := by
    rw [occ, occ, if_neg (fun hh => hmn hh.symm)]
  rcases setCol_cols h with hc | hc
  · rw [hc]
  · rw [hc, occ_append, h0]
    omega

lemma setCol_rows_length {df : DF} {n : String} {vs : List Value} {d' : DF}
    (h : df.setCol n vs = .ok d') (hlen : vs.length = df.rows.length) :
    d'.rows.length = df.rows.length := by
  rcases setCol_ok h with ⟨_, rfl⟩ | ⟨i, _, _, rfl⟩ <;>
    simp [zipW_length, hlen]

lemma setCol_WF {df : DF} {n : String} {vs : List Value} {d' : DF}
    (h : df.setCol n vs = .ok d') (W : DF.WF df) : DF.WF d' := by
  rcases setCol_ok h with ⟨_, rfl⟩ | ⟨i, _, _, rfl⟩
  · intro r hr
    obtain ⟨r0, v0, hr0, _, rfl⟩ := mem_zipW hr
    simp [W r0 hr0]
  · intro r hr
    obtain ⟨r0, v0, hr0, _, rfl⟩ := mem_zipW hr
    simp [W r0 hr0]

lemma rename_WF {df : DF} {m : List (String × String)} (W : DF.WF df) :
    DF.WF (df.rename m) := by
  intro r hr
  simpa [DF.rename] using W r hr

lemma optRename_WF {o : Option String} {canon : String} {df : DF} (W : DF.WF df) :
    DF.WF (optRename o canon df) := by
  cases o with
  | none => exact W
  | some h => exact rename_WF W

lemma renameAll_WF {c : ColumnasDetectadas} {df : DF} (W : DF.WF df) :
    DF.WF (renameAll c df) :=
  optRename_WF (optRename_WF (optRename_WF (rename_WF W)))

lemma renameAll_rows (c : ColumnasDetectadas) (df : DF) :
    (renameAll c df).rows = df.rows := by
  rw [renameAll]
  cases c.leads <;> cases c.campana <;> cases c.canal <;> rfl

lemma dropna_WF {df : DF} {n : String} {d' : DF} (h : df.dropna n = .ok d')
    (W : DF.WF df) : DF.WF d' := by
  obtain ⟨i, _, _, rfl⟩ := dropna_ok h
  intro r hr
  exact W r (List.mem_filter.1 hr).1

lemma toRows_mem {df : DF} {row : Row} (h : row ∈ df.toRows) :
    ∃ j, j < df.rows.length ∧ row = rowAt df j := by
  obtain ⟨j, hj, hrow⟩ := mem_map_getD ([] : List Value) h
  exact ⟨j, hj, hrow⟩

lemma rowAt_lookup_getCol {df : DF} {n : String} {v : List Value}
    (h : df.getCol n = .ok v) (W : DF.WF df) (j : Nat) (hj : j < df.rows.length) :
    lookupV n (rowAt df j) = some (v.getD j Value.null) := by
  obtain ⟨hocc, i, hidx, rfl⟩ := getCol_ok h
  rw [rowAt, lookupV_pairUp (df.rows.getD j []) hidx (W _ (getD_mem _ j [] hj)),
    getD_map (fun r => r.getD i Value.null) [] Value.null df.rows j hj]

lemma setCol_lookup_self {df : DF} {n : String} {vs : List Value} {d' : DF}
    (h : df.setCol n vs = .ok d') (W : DF.WF df)
    (hlen : vs.length = df.rows.length) (j : Nat) (hj : j < df.rows.length) :
    lookupV n (rowAt d' j) = some (vs.getD j Value.null) := by
  rcases setCol_ok h with ⟨hocc, rfl⟩ | ⟨i, hocc, hidx, rfl⟩
  · dsimp only [rowAt]
    rw [getD_zipW _ [] Value.null [] df.rows vs j hj (by omega),
      pairUp_append n _ df.cols _ (W _ (getD_mem _ j [] hj)),
      lookupV_append, lookupV_pairUp_none _ (not_mem_of_occ_zero hocc)]
    rw [lookupV, if_pos rfl]
    rfl
  · dsimp only [rowAt]
    rw [getD_zipW _ [] Value.null [] df.rows vs j hj (by omega)]
    rw [lookupV_pairUp _ hidx (by rw [List.length_set]; exact W _ (getD_mem _ j [] hj))]
    rw [getD_set_self _ _ _ _ (by rw [W _ (getD_mem _ j [] hj)]; exact firstIdx_lt hidx)]

lemma setCol_lookup_other {df : DF} {n : String} {vs : List Value} {d' : DF} {m : String}
    (h : df.setCol n vs = .ok d') (W : DF.WF df) (hmn : m ≠ n)
    (hlen : vs.length = df.rows.length) (j : Nat) (hj : j < df.rows.length) :
    lookupV m (rowAt d' j) = lookupV m (rowAt df j) := by
  rcases setCol_ok h with ⟨hocc, rfl⟩ | ⟨i, hocc, hidx, rfl⟩
  · dsimp only [rowAt]
    rw [getD_zipW _ [] Value.null [] df.rows vs j hj (by omega),
      pairUp_append n _ df.cols _ (W _ (getD_mem _ j [] hj)),
      lookupV_append]
    have hnone : lookupV m [(n, vs.getD j Value.null)] = none := by
      rw [lookupV, if_neg (fun hc => hmn hc.symm)]
      rfl
    rw [hnone, oor_none_right]
  · dsimp only [rowAt]
    rw [getD_zipW _ [] Value.null [] df.rows vs j hj (by omega)]
    exact lookupV_pairUp_set _ (firstIdx_lt hidx)
      (fun hc => hmn (hc.symm.trans (firstIdx_getD hidx)))

end App

namespace App

lemma coerceFecha_notNull (v : Value) :
    (!(coerceFecha v).isNull) = (toDatetime v).isSome := by
  rw [coerceFecha]
  cases toDatetime v <;> rfl

lemma setCol_cols_mem {df : DF} {n : String} {vs : List Value} {d' : DF}
    (h : df.setCol n vs = .ok d') : ∀ x ∈ d'.cols, x ∈ df.cols ∨ x = n := by
  intro x hx
  rcases setCol_cols h with hc | hc
  · rw [hc] at hx
    exact Or.inl hx
  · rw [hc] at hx
    rcases List.mem_append.1 hx with h1 | h2
    · exact Or.inl h1
    · exact Or.inr (List.mem_singleton.1 h2)

lemma cargar_hoja_ok {fn sn : String} {df0 d : DF} (h : cargar_hoja fn sn df0 = .ok d) :
    ∃ (fec : List Value) (df5 df6 : DF) (imp cl : List Value)
      (nimp ncl : List (Option ℚ)) (df7 : DF) (conv cost : List Value)
      (nconv ncost : List (Option ℚ)) (df8 df9 : DF),
      (renameAll (detectar_columnas df0.cols) df0).getCol "fecha" = .ok fec ∧
      (renameAll (detectar_columnas df0.cols) df0).setCol "fecha" (fec.map coerceFecha) = .ok df5 ∧
      df5.dropna "fecha" = .ok df6 ∧
      df6.getCol "impresiones" = .ok imp ∧
      df6.getCol "clics" = .ok cl ∧
      nums imp = .ok nimp ∧
      nums cl = .ok ncl ∧
      df6.setCol "CTR" (zipW ctrOf ncl nimp) = .ok df7 ∧
      df7.getCol "conversiones" = .ok conv ∧
      df7.getCol "coste" = .ok cost ∧
      nums conv = .ok nconv ∧
      nums cost = .ok ncost ∧
      df7.setCol "Coste_por_conversion" (zipW cpcOf ncost nconv) = .ok df8 ∧
      df8.setCol "origen_archivo" (List.replicate df8.rows.length (Value.str fn)) = .ok df9 ∧
      df9.setCol "origen_hoja" (List.replicate df9.rows.length (Value.str sn)) = .ok d := by
  rw [cargar_hoja] at h
  obtain ⟨fec, h1, h⟩ := bind_ok h
  obtain ⟨df5, h2, h⟩ := bind_ok h
  obtain ⟨df6, h3, h⟩ := bind_ok h
  obtain ⟨imp, h4, h⟩ := bind_ok h
  obtain ⟨cl, h5, h⟩ := bind_ok h
  obtain ⟨nimp, h6, h⟩ := bind_ok h
  obtain ⟨ncl, h7, h⟩ := bind_ok h
  obtain ⟨df7, h8, h⟩ := bind_ok h
  obtain ⟨conv, h9, h⟩ := bind_ok h
  obtain ⟨cost, h10, h⟩ := bind_ok h
  obtain ⟨nconv, h11, h⟩ := bind_ok h
  obtain ⟨ncost, h12, h⟩ := bind_ok h
  obtain ⟨df8, h13, h⟩ := bind_ok h
  obtain ⟨df9, h14, h⟩ := bind_ok h
  obtain ⟨df10, h15, h⟩ := bind_ok h
  cases pure_ok h
  exact ⟨fec, df5, df6, imp, cl, nimp, ncl, df7, conv, cost, nconv, ncost, df8, df9,
    h1, h2, h3, h4, h5, h6, h7, h8, h9, h10, h11, h12, h13, h14, h15⟩

lemma cargar_hoja_master {fn sn : String} {df0 d : DF} (h : cargar_hoja fn sn df0 = .ok d)
    (W : DF.WF df0) :
    ∃ fec : List Value,
      (renameAll (detectar_columnas df0.cols) df0).getCol "fecha" = .ok fec ∧
      DF.WF d ∧
      d.rows.length = (fec.filter (fun v => (toDatetime v).isSome)).length ∧
      (∀ x ∈ d.cols, x ∈ (renameAll (detectar_columnas df0.cols) df0).cols ∨
        x = "CTR" ∨ x = "Coste_por_conversion" ∨ x = "origen_archivo" ∨ x = "origen_hoja") ∧
      (∀ j, j < d.rows.length →
        lookupV "origen_archivo" (rowAt d j) = some (.str fn) ∧
        lookupV "origen_hoja" (rowAt d j) = some (.str sn) ∧
        (∃ dt : Int, lookupV "fecha" (rowAt d j) = some (.date dt)) ∧
        (lookupV "clics" (rowAt d j)).isSome ∧
        (lookupV "impresiones" (rowAt d j)).isSome ∧
        (lookupV "conversiones" (rowAt d j)).isSome ∧
        (lookupV "coste" (rowAt d j)).isSome ∧
        (lookupV "CTR" (rowAt d j)).isSome ∧
        (lookupV "Coste_por_conversion" (rowAt d j)).isSome ∧
        (∀ c i : ℚ, lookupV "clics" (rowAt d j) = some (.num c) →
          lookupV "impresiones" (rowAt d j) = some (.num i) →
          lookupV "CTR" (rowAt d j) = some (.num (if 0 < i then c / i * 100 else 0))) ∧
        (∀ co cv : ℚ, lookupV "coste" (rowAt d j) = some (.num co) →
          lookupV "conversiones" (rowAt d j) = some (.num cv) →
          lookupV "Coste_por_conversion" (rowAt d j) =
            some (if 0 < cv then Value.num (co / cv) else Value.null))) := by
  obtain ⟨fec, df5, df6, imp, cl, nimp, ncl, df7, conv, cost, nconv, ncost, df8, df9,
    h1, h2, h3, h4, h5, h6, h7, h8, h9, h10, h11, h12, h13, h14, h15⟩ := cargar_hoja_ok h
  have W4 : DF.WF (renameAll (detectar_columnas df0.cols) df0) := renameAll_WF W
  have lenfec : fec.length = (renameAll (detectar_columnas df0.cols) df0).rows.length :=
    getCol_length h1
  have lenmap : (fec.map coerceFecha).length =
      (renameAll (detectar_columnas df0.cols) df0).rows.length := by
    rw [List.length_map]
    exact lenfec
  have W5 : DF.WF df5 := setCol_WF h2 W4
  have W6 : DF.WF df6 := dropna_WF h3 W5
  have lenimp : imp.length = df6.rows.length := getCol_length h4
  have lencl : cl.length = df6.rows.length := getCol_length h5
  have lennimp : nimp.length = imp.length := nums_ok_length h6
  have lenncl : ncl.length = cl.length := nums_ok_length h7
  have lenctr : (zipW ctrOf ncl nimp).length = df6.rows.length := by
    rw [zipW_length]
    omega
  have W7 : DF.WF df7 := setCol_WF h8 W6
  have len7 : df7.rows.length = df6.rows.length := setCol_rows_length h8 lenctr
  have lenconv : conv.length = df7.rows.length := getCol_length h9
  have lencost : cost.length = df7.rows.length := getCol_length h10
  have lennconv : nconv.length = conv.length := nums_ok_length h11
  have lenncost : ncost.length = cost.length := nums_ok_length h12
  have lencpc : (zipW cpcOf ncost nconv).length = df7.rows.length := by
    rw [zipW_length]
    omega
  have W8 : DF.WF df8 := setCol_WF h13 W7
  have len8 : df8.rows.length = df7.rows.length := setCol_rows_length h13 lencpc
  have W9 : DF.WF df9 := setCol_WF h14 W8
  have len9 : df9.rows.length = df8.rows.length :=
    setCol_rows_length h14 (by rw [List.length_replicate])
  have Wd : DF.WF d := setCol_WF h15 W9
  have lend : d.rows.length = df9.rows.length :=
    setCol_rows_length h15 (by rw [List.length_replicate])
  obtain ⟨hoccF4, iF, hidxF4, hfec⟩ := getCol_ok h1
  rcases setCol_ok h2 with ⟨hocc0, _⟩ | ⟨iF2, _, hidxF4b, hdf5⟩
  · omega
  have hiF2 : iF2 = iF := by
    rw [hidxF4] at hidxF4b
    injection hidxF4b with hh
    exact hh.symm
  rw [hiF2] at hdf5
  obtain ⟨iF5, hoccF5, hidxF5, hdf6⟩ := dropna_ok h3
  have hrows5 : df5.rows = zipW (fun r v => r.set iF v)
      (renameAll (detectar_columnas df0.cols) df0).rows (fec.map coerceFecha) := by
    rw [hdf5]
  have hcols5 : df5.cols = (renameAll (detectar_columnas df0.cols) df0).cols := by
    rw [hdf5]
  have hiF5 : iF5 = iF := by
    rw [hcols5, hidxF4] at hidxF5
    injection hidxF5 with hh
    exact hh.symm
  rw [hiF5] at hdf6
  have hrows6 : df6.rows = df5.rows.filter (fun r => !(r.getD iF Value.null).isNull) := by
    rw [hdf6]
  have hcols6 : df6.cols = (renameAll (detectar_columnas df0.cols) df0).cols := by
    rw [hdf6]
    exact hcols5
  have hlen6 : df6.rows.length = (fec.filter (fun v => (toDatetime v).isSome)).length := by
    rw [hrows6, hrows5, filter_set_length iF _ _ lenmap
      (fun r hr => by rw [W4 r hr]; exact firstIdx_lt hidxF4), length_filter_map]
    have hfun : (fun a => !(coerceFecha a).isNull) = (fun v : Value => (toDatetime v).isSome) :=
      funext coerceFecha_notNull
    rw [hfun]
  refine ⟨fec, h1, Wd, by omega, ?_, ?_⟩
  · intro x hx
    rcases setCol_cols_mem h15 x hx with hx9 | rfl
    · rcases setCol_cols_mem h14 x hx9 with hx8 | rfl
      · rcases setCol_cols_mem h13 x hx8 with hx7 | rfl
        · rcases setCol_cols_mem h8 x hx7 with hx6 | rfl
          · left
            rw [← hcols6]
            exact hx6
          · right; left; rfl
        · right; right; left; rfl
      · right; right; right; left; rfl
    · right; right; right; right; rfl
  · intro j hj
    have hj9 : j < df9.rows.length := by omega
    have hj8 : j < df8.rows.length := by omega
    have hj7 : j < df7.rows.length := by omega
    have hj6 : j < df6.rows.length := by omega
    have chTo9 : ∀ m : String, m ≠ "origen_hoja" →
        lookupV m (rowAt d j) = lookupV m (rowAt df9 j) :=
      fun m hm => setCol_lookup_other h15 W9 hm (by rw [List.length_replicate]) j hj9
    have chTo8 : ∀ m : String, m ≠ "origen_hoja" → m ≠ "origen_archivo" →
        lookupV m (rowAt d j) = lookupV m (rowAt df8 j) :=
      fun m hm1 hm2 => (chTo9 m hm1).trans
        (setCol_lookup_other h14 W8 hm2 (by rw [List.length_replicate]) j hj8)
    have chTo7 : ∀ m : String, m ≠ "origen_hoja" → m ≠ "origen_archivo" →
        m ≠ "Coste_por_conversion" →
        lookupV m (rowAt d j) = lookupV m (rowAt df7 j) :=
      fun m hm1 hm2 hm3 => (chTo8 m hm1 hm2).trans
        (setCol_lookup_other h13 W7 hm3 lencpc j hj7)
    have chTo6 : ∀ m : String, m ≠ "origen_hoja" → m ≠ "origen_archivo" →
        m ≠ "Coste_por_conversion" → m ≠ "CTR" →
        lookupV m (rowAt d j) = lookupV m (rowAt df6 j) :=
      fun m hm1 hm2 hm3 hm4 => (chTo7 m hm1 hm2 hm3).trans
        (setCol_lookup_other h8 W6 hm4 lenctr j hj6)
    have horig1 : lookupV "origen_archivo" (rowAt d j) = some (.str fn) := by
      rw [chTo9 _ (by decide), setCol_lookup_self h14 W8 (by rw [List.length_replicate]) j hj8,
        getD_replicate _ _ _ _ hj8]
    have horig2 : lookupV "origen_hoja" (rowAt d j) = some (.str sn) := by
      rw [setCol_lookup_self h15 W9 (by rw [List.length_replicate]) j hj9,
        getD_replicate _ _ _ _ hj9]
    have hclics_eq : lookupV "clics" (rowAt d j) = some (cl.getD j Value.null) := by
      rw [chTo6 "clics" (by decide) (by decide) (by decide) (by decide)]
      exact rowAt_lookup_getCol h5 W6 j hj6
    have himp_eq : lookupV "impresiones" (rowAt d j) = some (imp.getD j Value.null) := by
      rw [chTo6 "impresiones" (by decide) (by decide) (by decide) (by decide)]
      exact rowAt_lookup_getCol h4 W6 j hj6
    have hconv_eq : lookupV "conversiones" (rowAt d j) = some (conv.getD j Value.null) := by
      rw [chTo7 "conversiones" (by decide) (by decide) (by decide)]
      exact rowAt_lookup_getCol h9 W7 j hj7
    have hcost_eq : lookupV "coste" (rowAt d j) = some (cost.getD j Value.null) := by
      rw [chTo7 "coste" (by decide) (by decide) (by decide)]
      exact rowAt_lookup_getCol h10 W7 j hj7
    have hctr_eq : lookupV "CTR" (rowAt d j) =
        some (ctrOf (ncl.getD j none) (nimp.getD j none)) := by
      rw [chTo7 "CTR" (by decide) (by decide) (by decide),
        setCol_lookup_self h8 W6 lenctr j hj6,
        getD_zipW ctrOf none none Value.null ncl nimp j (by omega) (by omega)]
    have hcpc_eq : lookupV "Coste_por_conversion" (rowAt d j) =
        some (cpcOf (ncost.getD j none) (nconv.getD j none)) := by
      rw [chTo8 "Coste_por_conversion" (by decide) (by decide),
        setCol_lookup_self h13 W7 lencpc j hj7,
        getD_zipW cpcOf none none Value.null ncost nconv j (by omega) (by omega)]
    have hfech : ∃ dt : Int, lookupV "fecha" (rowAt d j) = some (.date dt) := by
      have hch := chTo6 "fecha" (by decide) (by decide) (by decide) (by decide)
      have hrow6len : (df6.rows.getD j []).length = df6.cols.length :=
        W6 _ (getD_mem _ j [] hj6)
      have hidx6 : firstIdx "fecha" df6.cols = some iF := by
        rw [hcols6]
        exact hidxF4
      have hl6 : lookupV "fecha" (rowAt df6 j) =
          some ((df6.rows.getD j []).getD iF Value.null) :=
        lookupV_pairUp _ hidx6 hrow6len
      have hmem : df6.rows.getD j [] ∈
          df5.rows.filter (fun r => !(r.getD iF Value.null).isNull) := by
        rw [← hrows6]
        exact getD_mem _ j [] hj6
      have hpred := (List.mem_filter.1 hmem).2
      have hmem5 : df6.rows.getD j [] ∈ df5.rows := (List.mem_filter.1 hmem).1
      rw [hrows5] at hmem5
      obtain ⟨r0, v0, hr0, hv0, heq⟩ := mem_zipW hmem5
      obtain ⟨u, hu, huv⟩ := List.mem_map.1 hv0
      have hgd : (df6.rows.getD j []).getD iF Value.null = v0 := by
        rw [heq]
        exact getD_set_self _ _ _ _ (by rw [W4 r0 hr0]; exact firstIdx_lt hidxF4)
      rw [hgd] at hpred
      cases htd : toDatetime u with
      | none =>
        rw [← huv, coerceFecha, htd] at hpred
        simp [Value.isNull] at hpred
      | some dt =>
        refine ⟨dt, ?_⟩
        rw [hch, hl6, hgd, ← huv, coerceFecha, htd]
    refine ⟨horig1, horig2, hfech, by rw [hclics_eq]; rfl, by rw [himp_eq]; rfl,
      by rw [hconv_eq]; rfl, by rw [hcost_eq]; rfl, by rw [hctr_eq]; rfl,
      by rw [hcpc_eq]; rfl, ?_, ?_⟩
    · intro cq iq hc hi
      rw [hclics_eq] at hc
      rw [himp_eq] at hi
      have hclv : cl.getD j Value.null = .num cq := Option.some.inj hc
      have himv : imp.getD j Value.null = .num iq := Option.some.inj hi
      have hncl : ncl.getD j none = some cq := by
        have hx := nums_ok_getD h7 j (by omega)
        rw [hclv] at hx
        exact (Except.ok.inj hx).symm
      have hnimp : nimp.getD j none = some iq := by
        have hx := nums_ok_getD h6 j (by omega)
        rw [himv] at hx
        exact (Except.ok.inj hx).symm
      rw [hctr_eq, hncl, hnimp]
      by_cases hpos : 0 < iq <;> simp [ctrOf, hpos]
    · intro co cv hco hcv
      rw [hcost_eq] at hco
      rw [hconv_eq] at hcv
      have hcov : cost.getD j Value.null = .num co := Option.some.inj hco
      have hcvv : conv.getD j Value.null = .num cv := Option.some.inj hcv
      have hncost : ncost.getD j none = some co := by
        have hx := nums_ok_getD h12 j (by omega)
        rw [hcov] at hx
        exact (Except.ok.inj hx).symm
      have hnconv : nconv.getD j none = some cv := by
        have hx := nums_ok_getD h11 j (by omega)
        rw [hcvv] at hx
        exact (Except.ok.inj hx).symm
      rw [hcpc_eq, hncost, hnconv]
      by_cases hpos : 0 < cv <;> simp [cpcOf, hpos]

end App

namespace App

lemma procesarHoja_inr {fn : String} {h : Hoja} {d : DF}
    (hp : procesarHoja fn h = .inr d) :
    requiredOk (detectar_columnas h.df.cols) = true ∧
    cargar_hoja fn h.name h.df = .ok d := by
  rw [procesarHoja] at hp
  by_cases hr : requiredOk (detectar_columnas h.df.cols) = true
  · rw [if_pos hr] at hp
    cases hc : cargar_hoja fn h.name h.df with
    | ok dd =>
      rw [hc] at hp
      injection hp with hdd
      exact ⟨hr, by rw [hdd]⟩
    | error e =>
      rw [hc] at hp
      cases hp
  · rw [if_neg hr] at hp
    cases hp

lemma output_row_from_sheet {files : List Archivo} {row : Row}
    (hrow : row ∈ (cargar_datos files).1) :
    ∃ f ∈ files, ∃ hj ∈ f.hojas, ∃ d, procesarHoja f.name hj = .inr d ∧ row ∈ d.toRows := by
  have hrow' : row ∈ concatAll (files.map (fun f => (contribArchivo f).1)) := hrow
  obtain ⟨l, hl, hrl⟩ := mem_concatAll hrow'
  obtain ⟨f, hf, rfl⟩ := List.mem_map.1 hl
  have hrl' : row ∈ concatAll (f.hojas.map (fun hj => (contribHoja f.name hj).1)) := hrl
  obtain ⟨l2, hl2, hrl2⟩ := mem_concatAll hrl'
  obtain ⟨hj, hhj, rfl⟩ := List.mem_map.1 hl2
  cases hp : procesarHoja f.name hj with
  | inl dg =>
    rw [contribHoja, hp] at hrl2
    cases hrl2
  | inr d =>
    rw [contribHoja, hp] at hrl2
    exact ⟨f, hf, hj, hhj, d, hp, hrl2⟩

lemma not_matches_of_none {hs : List String} {k : FieldKey}
    (h : getKey (detectar_columnas hs) k = none) :
    ∀ x ∈ hs, matchesKey k x = false := by
  rw [detectar_getKey] at h
  intro x hx
  cases hmk : matchesKey k x with
  | false => rfl
  | true =>
    exfalso
    have hxf : x ∈ hs.filter (fun h => matchesKey k h) := List.mem_filter.2 ⟨hx, hmk⟩
    cases hf : hs.filter (fun h => matchesKey k h) with
    | nil =>
      rw [hf] at hxf
      cases hxf
    | cons a l =>
      rw [hf, lastO] at h
      cases hl : lastO l with
      | none =>
        rw [hl] at h
        exact Option.noConfusion h
      | some b =>
        rw [hl] at h
        exact Option.noConfusion h

lemma foldl_dict_cases (x : String) :
    ∀ (m : List (String × String)) (a : Option String),
      m.foldl (fun acc kv => if kv.1 = x then some kv.2 else acc) a = a ∨
      ∃ v ∈ m.map Prod.snd,
        m.foldl (fun acc kv => if kv.1 = x then some kv.2 else acc) a = some v := by
  intro m
  induction m with
  | nil => intro a; exact Or.inl rfl
  | cons kv m ih =>
    intro a
    rw [List.foldl_cons]
    rcases ih (if kv.1 = x then some kv.2 else a) with he | ⟨v, hv, he⟩
    · by_cases hk : kv.1 = x
      · refine Or.inr ⟨kv.2, List.mem_cons_self _ _, ?_⟩
        rw [he, if_pos hk]
      · refine Or.inl ?_
        rw [he, if_neg hk]
    · exact Or.inr ⟨v, List.mem_cons_of_mem _ hv, he⟩

lemma applyDict_cases (m : List (String × String)) (x : String) :
    applyDict m x = x ∨ applyDict m x ∈ m.map Prod.snd := by
  rw [applyDict]
  rcases foldl_dict_cases x m none with he | ⟨v, hv, he⟩
  · rw [he]
    exact Or.inl rfl
  · rw [he]
    exact Or.inr hv

lemma rename_cols_mem {df : DF} {m : List (String × String)} :
    ∀ x ∈ (df.rename m).cols, x ∈ df.cols ∨ x ∈ m.map Prod.snd := by
  intro x hx
  have hx' : x ∈ df.cols.map (applyDict m) := hx
  obtain ⟨y, hy, rfl⟩ := List.mem_map.1 hx'
  rcases applyDict_cases m y with he | he
  · rw [he]
    exact Or.inl hy
  · exact Or.inr he

lemma optRename_cols_mem {o : Option String} {canon : String} {df : DF} :
    ∀ x ∈ (optRename o canon df).cols,
      x ∈ df.cols ∨ (o.isSome = true ∧ x = canon) := by
  intro x hx
  cases o with
  | none => exact Or.inl hx
  | some hh =>
    rcases rename_cols_mem x hx with h1 | h2
    · exact Or.inl h1
    · exact Or.inr ⟨rfl, List.mem_singleton.1 h2⟩

lemma renameAll_cols_mem {c : ColumnasDetectadas} {df : DF} :
    ∀ x ∈ (renameAll c df).cols,
      x ∈ df.cols ∨
      x ∈ (["fecha", "region", "clics", "impresiones", "conversiones", "coste"] : List String) ∨
      (c.canal.isSome = true ∧ x = "canal") ∨ (c.campana.isSome = true ∧ x = "campana") ∨
      (c.leads.isSome = true ∧ x = "leads") := by
  intro x hx
  rw [renameAll] at hx
  rcases optRename_cols_mem x hx with hx1 | ⟨ho, rfl⟩
  · rcases optRename_cols_mem x hx1 with hx2 | ⟨ho, rfl⟩
    · rcases optRename_cols_mem x hx2 with hx3 | ⟨ho, rfl⟩
      · rcases rename_cols_mem x hx3 with hx4 | hx4
        · exact Or.inl hx4
        · exact Or.inr (Or.inl hx4)
      · exact Or.inr (Or.inr (Or.inl ⟨ho, rfl⟩))
    · exact Or.inr (Or.inr (Or.inr (Or.inl ⟨ho, rfl⟩)))
  · exact Or.inr (Or.inr (Or.inr (Or.inr ⟨ho, rfl⟩)))

lemma optional_absent {fn : String} {h : Hoja} {d : DF} (hp : procesarHoja fn h = .inr d)
    (W : DF.WF h.df) (k : FieldKey) (hk : k ∈ ([.canal, .campana, .leads] : List FieldKey))
    (hnone : getKey (detectar_columnas h.df.cols) k = none) :
    ∀ row ∈ d.toRows, lookupV (keyword k) row = none := by
  obtain ⟨hreq, hok⟩ := procesarHoja_inr hp
  obtain ⟨fec, _, Wd, _, hcolsub, _⟩ := cargar_hoja_master hok W
  intro row hrow
  obtain ⟨j, hjlen, rfl⟩ := toRows_mem hrow
  rw [rowAt]
  apply lookupV_pairUp_none
  intro hmem
  have hmatch := not_matches_of_none hnone
  simp only [List.mem_cons, List.not_mem_nil, or_false] at hk
  rcases hk with rfl | rfl | rfl
  · rcases hcolsub _ hmem with hmem4 | h4 | h4 | h4 | h4
    · rcases renameAll_cols_mem _ hmem4 with hc | hc | ⟨hs, _⟩ | ⟨_, he⟩ | ⟨_, he⟩
      · exact absurd (hmatch _ hc) (by decide)
      · exact absurd hc (by decide)
      · have hnone' : (detectar_columnas h.df.cols).canal = none := hnone
        rw [hnone'] at hs
        cases hs
      · exact absurd he (by decide)
      · exact absurd he (by decide)
    all_goals exact absurd h4 (by decide)
  · rcases hcolsub _ hmem with hmem4 | h4 | h4 | h4 | h4
    · rcases renameAll_cols_mem _ hmem4 with hc | hc | ⟨_, he⟩ | ⟨hs, _⟩ | ⟨_, he⟩
      · exact absurd (hmatch _ hc) (by decide)
      · exact absurd hc (by decide)
      · exact absurd he (by decide)
      · have hnone' : (detectar_columnas h.df.cols).campana = none := hnone
        rw [hnone'] at hs
        cases hs
      · exact absurd he (by decide)
    all_goals exact absurd h4 (by decide)
  · rcases hcolsub _ hmem with hmem4 | h4 | h4 | h4 | h4
    · rcases renameAll_cols_mem _ hmem4 with hc | hc | ⟨_, he⟩ | ⟨_, he⟩ | ⟨hs, _⟩
      · exact absurd (hmatch _ hc) (by decide)
      · exact absurd hc (by decide)
      · exact absurd he (by decide)
      · exact absurd he (by decide)
      · have hnone' : (detectar_columnas h.df.cols).leads = none := hnone
        rw [hnone'] at hs
        cases hs
    all_goals exact absurd h4 (by decide)

end App

namespace App

/-- C2: in every row of the unified dataset, the CTR column equals
`clicks / impressions * 100` when impressions are positive and `0`
otherwise (total, no division error), and the cost-per-conversion column
equals `cost / conversions` when conversions are positive and is the null
marker — not the number 0 — otherwise (`Value.null ≠ Value.num 0`). -/
theorem claim_C2 (files : List Archivo) (row : Row) (Wb : batchWF files)
    (hrow : row ∈ (cargar_datos files).1) :
    (∀ c i : ℚ, lookupV "clics" row = some (.num c) →
      lookupV "impresiones" row = some (.num i) →
      lookupV "CTR" row = some (.num (if 0 < i then c / i * 100 else 0))) ∧
    (∀ co cv : ℚ, lookupV "coste" row = some (.num co) →
      lookupV "conversiones" row = some (.num cv) →
      lookupV "Coste_por_conversion" row =
        some (if 0 < cv then Value.num (co / cv) else Value.null)) := by
  obtain ⟨f, hf, hj, hhj, d, hp, hrd⟩ := output_row_from_sheet hrow
  obtain ⟨hreq, hok⟩ := procesarHoja_inr hp
  obtain ⟨fec, _, _, _, _, hperrow⟩ := cargar_hoja_master hok (Wb f hf hj hhj)
  obtain ⟨j, hjlen, rfl⟩ := toRows_mem hrd
  obtain ⟨_, _, _, _, _, _, _, _, _, hctr, hcpc⟩ := hperrow j hjlen
  exact ⟨hctr, hcpc⟩

/-- Witness for C2: in the concrete batch, the first output row has
clicks 10 and impressions 100 giving CTR `10/100*100`, and the second has
conversions 0 giving a null cost-per-conversion. -/
theorem claim_C2_witness :
    lookupV "CTR" (rowAt dGood 0) =
      some (.num (if 0 < (100 : ℚ) then 10 / 100 * 100 else 0)) ∧
    lookupV "Coste_por_conversion" (rowAt dGood 1) =
      some (if 0 < (0 : ℚ) then Value.num (9 / 0) else Value.null) := by
  have hout : (cargar_datos batchGood).1 = [rowAt dGood 0, rowAt dGood 1] := rfl
  constructor
  · exact (claim_C2 batchGood (rowAt dGood 0) (by decide)
      (by rw [hout]; exact List.mem_cons_self _ _)).1 10 100 (by decide) (by decide)
  · exact (claim_C2 batchGood (rowAt dGood 1) (by decide)
      (by rw [hout]; exact List.mem_cons_of_mem _ (List.mem_cons_self _ _))).2 9 0
      (by decide) (by decide)

/-- C7: every row of a processed sheet carries the provenance pair of its
originating file and sheet, and the unified dataset is exactly the
concatenation of the per-sheet row lists, which neither changes nor loses
these tags. -/
theorem claim_C7 (files : List Archivo) (fn : String) (h : Hoja) (d : DF)
    (hp : procesarHoja fn h = .inr d) (W : DF.WF h.df) :
    (∀ row ∈ d.toRows,
      lookupV "origen_archivo" row = some (.str fn) ∧
      lookupV "origen_hoja" row = some (.str h.name)) ∧
    (cargar_datos files).1 = concatAll (files.map (fun f =>
      concatAll (f.hojas.map (fun hj => (contribHoja f.name hj).1)))) := by
  constructor
  · intro row hrow
    obtain ⟨hreq, hok⟩ := procesarHoja_inr hp
    obtain ⟨fec, _, _, _, _, hperrow⟩ := cargar_hoja_master hok W
    obtain ⟨j, hjlen, rfl⟩ := toRows_mem hrow
    obtain ⟨h1, h2, _⟩ := hperrow j hjlen
    exact ⟨h1, h2⟩
  · rfl

/-- Witness for C7: the concrete processed sheet's row is tagged with its
file and sheet name. -/
theorem claim_C7_witness :
    lookupV "origen_archivo" (rowAt dGood 0) = some (.str "a.xlsx") ∧
    lookupV "origen_hoja" (rowAt dGood 0) = some (.str "Hoja1") :=
  (claim_C7 batchGood "a.xlsx" ⟨"Hoja1", dfGood⟩ dGood rfl (by decide)).1
    (rowAt dGood 0) (List.mem_cons_self _ _)

/-- C6: a sheet that passes required-field gating and is processed drops
exactly the rows whose date value fails to coerce — the row count equals
the number of coercible dates in the resolved date column, every surviving
row holds a parsed date, and no diagnostic is emitted for the sheet. -/
theorem claim_C6 (fn : String) (h : Hoja) (d : DF)
    (hp : procesarHoja fn h = .inr d) (W : DF.WF h.df) :
    (contribHoja fn h).2 = [] ∧
    ∃ fec, (renameAll (detectar_columnas h.df.cols) h.df).getCol "fecha" = .ok fec ∧
      d.rows.length = (fec.filter (fun v => (toDatetime v).isSome)).length ∧
      (∀ row ∈ d.toRows, ∃ dt : Int, lookupV "fecha" row = some (.date dt)) := by
  obtain ⟨hreq, hok⟩ := procesarHoja_inr hp
  obtain ⟨fec, hfec, _, hlen, _, hperrow⟩ := cargar_hoja_master hok W
  refine ⟨by rw [contribHoja, hp], fec, hfec, hlen, ?_⟩
  intro row hrow
  obtain ⟨j, hjlen, rfl⟩ := toRows_mem hrow
  exact (hperrow j hjlen).2.2.1

/-- Witness for C6: the concrete sheet has three rows, one with an
uncoercible date; the processed sheet keeps exactly the two coercible rows
and emits no diagnostic. -/
theorem claim_C6_witness :
    (contribHoja "a.xlsx" (⟨"Hoja1", dfGood⟩ : Hoja)).2 = [] ∧
    ∃ fec, (renameAll (detectar_columnas dfGood.cols) dfGood).getCol "fecha" = .ok fec ∧
      dGood.rows.length = (fec.filter (fun v => (toDatetime v).isSome)).length ∧
      (∀ row ∈ dGood.toRows, ∃ dt : Int, lookupV "fecha" row = some (.date dt)) :=
  claim_C6 "a.xlsx" ⟨"Hoja1", dfGood⟩ dGood rfl (by decide)

/-- C4 fails as stated: the concrete batches produce unified-dataset rows
that retain the unmatched header `"extra"` (a key outside the canonical,
derived and provenance sets), and a row lacking the required `"region"`
key (its detected header was renamed to `"clics"` by the later dict
entry). -/
theorem claim_C4_counterexample :
    ((rowAt dGood 0) ∈ (cargar_datos batchGood).1 ∧
      lookupV "extra" (rowAt dGood 0) = some (.num 7)) ∧
    ((rowAt dRC 0) ∈ (cargar_datos batchRC).1 ∧
      lookupV "region" (rowAt dRC 0) = none) := by
  have hout : (cargar_datos batchGood).1 = [rowAt dGood 0, rowAt dGood 1] := rfl
  have houtRC : (cargar_datos batchRC).1 = [rowAt dRC 0] := rfl
  refine ⟨⟨?_, by decide⟩, ⟨?_, by decide⟩⟩
  · rw [hout]
    exact List.mem_cons_self _ _
  · rw [houtRC]
    exact List.mem_cons_self _ _

/-- C4 (amended): every unified-dataset row carries the keys `fecha`,
`clics`, `impresiones`, `conversiones`, `coste` (region may be lost to a
rename collision), the two derived keys and the two provenance keys; an
optional field key appears in a processed sheet's rows only if it was
resolved; but headers matching no keyword are retained rather than
dropped. -/
theorem claim_C4_amended (files : List Archivo) (Wb : batchWF files) :
    (∀ row ∈ (cargar_datos files).1,
      (lookupV "fecha" row).isSome ∧ (lookupV "clics" row).isSome ∧
      (lookupV "impresiones" row).isSome ∧ (lookupV "conversiones" row).isSome ∧
      (lookupV "coste" row).isSome ∧ (lookupV "CTR" row).isSome ∧
      (lookupV "Coste_por_conversion" row).isSome ∧
      (lookupV "origen_archivo" row).isSome ∧ (lookupV "origen_hoja" row).isSome) ∧
    (∀ (fn : String) (h : Hoja) (d : DF), procesarHoja fn h = .inr d → DF.WF h.df →
      ∀ k ∈ ([.canal, .campana, .leads] : List FieldKey),
        getKey (detectar_columnas h.df.cols) k = none →
        ∀ row ∈ d.toRows, lookupV (keyword k) row = none) := by
  constructor
  · intro row hrow
    obtain ⟨f, hf, hj, hhj, d, hp, hrd⟩ := output_row_from_sheet hrow
    obtain ⟨hreq, hok⟩ := procesarHoja_inr hp
    obtain ⟨fec, _, _, _, _, hperrow⟩ := cargar_hoja_master hok (Wb f hf hj hhj)
    obtain ⟨j, hjlen, rfl⟩ := toRows_mem hrd
    obtain ⟨ha, hb, ⟨dt, hdt⟩, h1, h2, h3, h4, h5, h6, _, _⟩ := hperrow j hjlen
    exact ⟨by rw [hdt]; rfl, h1, h2, h3, h4, h5, h6, by rw [ha]; rfl, by rw [hb]; rfl⟩
  · intro fn h d hp W k hk hnone
    exact optional_absent hp W k hk hnone

/-- Witness for C4 (amended): in the concrete batch the first row carries
the `fecha` key, and the unresolved optional `canal` key is absent. -/
theorem claim_C4_witness :
    (lookupV "fecha" (rowAt dGood 0)).isSome = true ∧
    lookupV "canal" (rowAt dGood 0) = none := by
  have hout : (cargar_datos batchGood).1 = [rowAt dGood 0, rowAt dGood 1] := rfl
  constructor
  · exact ((claim_C4_amended batchGood (by decide)).1 (rowAt dGood 0)
      (by rw [hout]; exact List.mem_cons_self _ _)).1
  · exact (claim_C4_amended batchGood (by decide)).2 "a.xlsx" ⟨"Hoja1", dfGood⟩ dGood
      rfl (by decide) .canal (by decide) (by decide) (rowAt dGood 0)
      (List.mem_cons_self _ _)

/-- C10 fails as stated: in `dfRC` the header `"region clics"` is the
resolved header of both `region` and `clics`, yet the sheet is not
skipped — it contributes one row and no error diagnostic, because the
shadowed canonical column `"region"` is never accessed by the
normalizer. -/
theorem claim_C10_counterexample :
    getKey (detectar_columnas dfRC.cols) .region = some "region clics" ∧
    getKey (detectar_columnas dfRC.cols) .clics = some "region clics" ∧
    (contribHoja "b.xlsx" ⟨"H", dfRC⟩).2 = [] ∧
    (contribHoja "b.xlsx" ⟨"H", dfRC⟩).1.length = 1 :=
  ⟨by decide, by decide, rfl, rfl⟩

/-- C10 (amended): when a rename collision removes one of the canonical
columns the normalizer actually accesses (`fecha`, `clics`,
`impresiones`, `conversiones`, `coste`), the access raises, the sheet is
skipped with one sheet-level error diagnostic and contributes zero rows;
but when the shadowed field is `region` — never accessed during
normalization — the sheet is processed and contributes rows lacking a
`region` key. -/
theorem claim_C10_amended :
    (∀ (fn : String) (h : Hoja) (n : String),
      requiredOk (detectar_columnas h.df.cols) = true →
      n ∈ (["fecha", "clics", "impresiones", "conversiones", "coste"] : List String) →
      n ∉ (renameAll (detectar_columnas h.df.cols) h.df).cols →
      contribHoja fn h = ([], [Diag.errorHoja h.name fn])) ∧
    (contribHoja "b.xlsx" ⟨"H", dfRC⟩ = (dRC.toRows, []) ∧
      lookupV "region" (rowAt dRC 0) = none) := by
  constructor
  · intro fn h n hreq hn hnotin
    cases hc : cargar_hoja fn h.name h.df with
    | error e =>
      rw [contribHoja, procesarHoja, if_pos hreq, hc]
    | ok d =>
      exfalso
      obtain ⟨fec, df5, df6, imp, cl, nimp, ncl, df7, conv, cost, nconv, ncost, df8, df9,
        h1, h2, h3, h4, h5, _, _, h8, h9, h10, _, _, _, _, _⟩ := cargar_hoja_ok hc
      obtain ⟨hoccF4, iF, hidxF4, _⟩ := getCol_ok h1
      have hmem_fecha : "fecha" ∈ (renameAll (detectar_columnas h.df.cols) h.df).cols := by
        rw [← firstIdx_getD hidxF4]
        exact getD_mem _ iF "" (firstIdx_lt hidxF4)
      rcases setCol_ok h2 with ⟨hocc0, _⟩ | ⟨iF2, _, _, hdf5⟩
      · omega
      obtain ⟨iF5, _, _, hdf6⟩ := dropna_ok h3
      have hcols5 : df5.cols = (renameAll (detectar_columnas h.df.cols) h.df).cols := by
        rw [hdf5]
      have hcols6 : df6.cols = (renameAll (detectar_columnas h.df.cols) h.df).cols := by
        rw [hdf6]
        exact hcols5
      have hmem_of_6 : ∀ (m : String) (v : List Value), df6.getCol m = .ok v →
          m ∈ (renameAll (detectar_columnas h.df.cols) h.df).cols := by
        intro m v hg
        obtain ⟨_, i, hidx, _⟩ := getCol_ok hg
        rw [← hcols6, ← firstIdx_getD hidx]
        exact getD_mem _ i "" (firstIdx_lt hidx)
      have hmem_of_7 : ∀ (m : String), m ≠ "CTR" → ∀ (v : List Value), df7.getCol m = .ok v →
          m ∈ (renameAll (detectar_columnas h.df.cols) h.df).cols := by
        intro m hne v hg
        obtain ⟨_, i, hidx, _⟩ := getCol_ok hg
        have hm7 : m ∈ df7.cols := by
          rw [← firstIdx_getD hidx]
          exact getD_mem _ i "" (firstIdx_lt hidx)
        rcases setCol_cols_mem h8 m hm7 with hm6 | rfl
        · rw [← hcols6]
          exact hm6
        · exact absurd rfl hne
      simp only [List.mem_cons, List.not_mem_nil, or_false] at hn
      rcases hn with rfl | rfl | rfl | rfl | rfl
      · exact hnotin hmem_fecha
      · exact hnotin (hmem_of_6 _ _ h5)
      · exact hnotin (hmem_of_6 _ _ h4)
      · exact hnotin (hmem_of_7 _ (by decide) _ h9)
      · exact hnotin (hmem_of_7 _ (by decide) _ h10)
  · exact ⟨rfl, by decide⟩

/-- Witness for C10 (amended): in `dfFC` the header `"fecha coste"` is
resolved for both `fecha` and `coste`, the dict renames it to `"coste"`,
`"fecha"` is gone, and the sheet is skipped with one error diagnostic. -/
theorem claim_C10_witness :
    contribHoja "c.xlsx" ⟨"H", dfFC⟩ = ([], [Diag.errorHoja "H" "c.xlsx"]) :=
  claim_C10_amended.1 "c.xlsx" ⟨"H", dfFC⟩ "fecha" (by decide) (by decide) (by decide)

end App
